import Mathlib

/-!
Verification of the audit-trail recorder (`src/lib/audit.rs`).

The module defines a hierarchical audit record (`AuditScope`), its event
variants (`AuditEvent`, `AuditLog`), append operations (`log_event`,
`append_scope`), a timing macro (`audit_segment!`), and serde-derived JSON
serialization used by the `Display` impl.

Shallow embedding conventions:
- Wall-clock timestamps (`SystemTime::now` rendered via `to_rfc3339`) are
  modelled as explicit string inputs supplied by the caller (a clock input),
  since the Rust code only ever stores the rendered RFC-3339 string.
- Monotonic instants (`Instant::now`) are modelled as natural numbers
  supplied as explicit inputs to the timing macro.
- `std::time::Duration` is modelled by its two serde-visible components,
  `secs` and `nanos` (both natural numbers); the Rust type invariant
  `nanos < 1_000_000_000` is stated as an explicit well-formedness
  predicate where a proof needs it.
- JSON values (`serde_json`) are modelled by the `Json` inductive; objects
  are ordered key/value lists, matching the field order that the derived
  `Serialize` impls emit.
-/

/-- Model of `std::time::Duration`: the two components that serde's
`Serialize`/`Deserialize` impls for `Duration` expose (`secs: u64`,
`nanos: u32`). -/
structure Duration where
  secs : Nat
  nanos : Nat
deriving DecidableEq, Repr

/-- `Duration::new(secs, nanos)` as used by serde's `Deserialize` impl for
`Duration`: carries surplus nanoseconds into whole seconds. -/
def Duration.new (secs nanos : Nat) : Duration :=
  ⟨secs + nanos / 1000000000, nanos % 1000000000⟩

/-- The invariant every Rust `Duration` value satisfies: the nanosecond
component is strictly below one second. -/
def Duration.Wf (d : Duration) : Prop := d.nanos < 1000000000

instance (d : Duration) : Decidable d.Wf := by
  unfold Duration.Wf; infer_instance

/-- `struct AuditLog { time: String, name: String }`. -/
structure AuditLog where
  time : String
  name : String
deriving DecidableEq, Repr

mutual

/-- `enum AuditEvent { log(AuditLog), scope(AuditScope) }`. -/
inductive AuditEvent where
  | log : AuditLog → AuditEvent
  | scope : AuditScope → AuditEvent

/-- `struct AuditScope { time: String, name: String, duration: Option<Duration>, events: Vec<AuditEvent> }`. -/
inductive AuditScope where
  | mk : String → String → Option Duration → List AuditEvent → AuditScope

end

/-- Field `time` of `AuditScope`. -/
def AuditScope.time : AuditScope → String
  | .mk t _ _ _ => t

/-- Field `name` of `AuditScope`. -/
def AuditScope.name : AuditScope → String
  | .mk _ n _ _ => n

/-- Field `duration` of `AuditScope`. -/
def AuditScope.duration : AuditScope → Option Duration
  | .mk _ _ d _ => d

/-- Field `events` of `AuditScope`. -/
def AuditScope.events : AuditScope → List AuditEvent
  | .mk _ _ _ evs => evs

/-- `AuditScope::new(name)`: the wall-clock timestamp captured inside the
function (`SystemTime::now()` rendered with `to_rfc3339`) is supplied as the
explicit clock input `now`. -/
def AuditScope.new (now : String) (name : String) : AuditScope :=
  .mk now name none []

/-- `AuditScope::append_scope(&mut self, scope)`: pushes
`AuditEvent::scope(scope)` onto `events`. -/
def AuditScope.append_scope : AuditScope → AuditScope → AuditScope
  | .mk t n d evs, child => .mk t n d (evs ++ [.scope child])

/-- `AuditScope::log_event(&mut self, data)`: pushes
`AuditEvent::log(AuditLog { time, name: data })` onto `events`; the
timestamp captured inside the function is the explicit clock input `now`. -/
def AuditScope.log_event (s : AuditScope) (now : String) (data : String) : AuditScope :=
  match s with
  | .mk t n d evs => .mk t n d (evs ++ [.log ⟨now, data⟩])

/-- JSON values as produced by `serde_json`; objects keep the key order in
which the serializer emits the fields. -/
inductive Json where
  | null : Json
  | str : String → Json
  | num : Nat → Json
  | arr : List Json → Json
  | obj : List (String × Json) → Json

/-- serde's `Serialize for Duration`: a two-field struct
`\x7b "secs": u64, "nanos": u32 \x7d`. -/
def serializeDuration (d : Duration) : Json :=
  .obj [("secs", .num d.secs), ("nanos", .num d.nanos)]

/-- Derived serialization of an `Option` field: `None` becomes JSON `null`,
`Some v` serializes `v` directly (untagged). -/
def serializeOptionDuration : Option Duration → Json
  | none => .null
  | some d => serializeDuration d

/-- Derived `Serialize for AuditLog`: a struct with fields `time`, `name`
in declaration order. -/
def serializeLog (l : AuditLog) : Json :=
  .obj [("time", .str l.time), ("name", .str l.name)]

mutual

/-- Derived `Serialize for AuditEvent`: serde's default externally tagged
representation, with the variant identifiers `log` and `scope` exactly as
declared in the source. -/
def serializeEvent : AuditEvent → Json
  | .log l => .obj [("log", serializeLog l)]
  | .scope s => .obj [("scope", serializeScope s)]

/-- Derived `Serialize for AuditScope`: fields `time`, `name`, `duration`,
`events` in declaration order. -/
def serializeScope : AuditScope → Json
  | .mk t n d evs =>
    .obj [("time", .str t), ("name", .str n),
          ("duration", serializeOptionDuration d),
          ("events", .arr (serializeEvents evs))]

/-- Serialization of a `Vec<AuditEvent>` as a JSON array, element-wise in
order. -/
def serializeEvents : List AuditEvent → List Json
  | [] => []
  | e :: es => serializeEvent e :: serializeEvents es

end

/-- Key lookup in a serialized object, by field name (serde's derived
deserializers match fields by name). -/
def lookupField : List (String × Json) → String → Option Json
  | [], _ => none
  | (k, v) :: rest, key => if k = key then some v else lookupField rest key

/-- Field access on a serialized record. -/
def Json.getField : Json → String → Option Json
  | .obj kvs, key => lookupField kvs key
  | _, _ => none

/-- serde's `Deserialize for Duration`: reads the `secs` and `nanos`
components and rebuilds the value with `Duration::new` (which normalises
surplus nanoseconds). The model reads the fields in the order the
serializer writes them. -/
def deserializeDuration : Json → Option Duration
  | .obj [("secs", .num s), ("nanos", .num n)] => some (Duration.new s n)
  | _ => none

/-- Derived deserialization of an `Option<Duration>` field: JSON `null`
becomes `None`, any other value is deserialized as a `Duration`. -/
def deserializeOptionDuration : Json → Option (Option Duration)
  | .null => some none
  | j => (deserializeDuration j).map some

/-- Derived `Deserialize for AuditLog`. -/
def deserializeLog : Json → Option AuditLog
  | .obj [("time", .str t), ("name", .str n)] => some ⟨t, n⟩
  | _ => none

mutual

/-- Derived `Deserialize for AuditEvent`: externally tagged, a one-entry
map whose key is the variant identifier `log` or `scope`. -/
def deserializeEvent : Json → Option AuditEvent
  | .obj [("log", v)] =>
    match deserializeLog v with
    | some l => some (.log l)
    | none => none
  | .obj [("scope", v)] =>
    match deserializeScope v with
    | some s => some (.scope s)
    | none => none
  | _ => none

/-- Derived `Deserialize for AuditScope`: all four fields are required.
The model reads them in the (canonical) order in which the derived
serializer emits them; serde's visitor additionally accepts permuted field
order, which serialized records never exhibit. -/
def deserializeScope : Json → Option AuditScope
  | .obj [("time", .str t), ("name", .str n), ("duration", dj), ("events", .arr evs)] =>
    match deserializeOptionDuration dj, deserializeEvents evs with
    | some d, some es => some (.mk t n d es)
    | _, _ => none
  | _ => none

/-- Deserialization of a JSON array into a `Vec<AuditEvent>`, element-wise
in order, failing if any element fails. -/
def deserializeEvents : List Json → Option (List AuditEvent)
  | [] => some []
  | j :: js =>
    match deserializeEvent j, deserializeEvents js with
    | some e, some es => some (e :: es)
    | _, _ => none

end

/-- Decidable form of the Rust `Duration` invariant (`nanos` below one
second). -/
def Duration.wfb (d : Duration) : Bool := d.nanos < 1000000000

/-- Well-formedness of an optional duration. -/
def wfOptDuration : Option Duration → Bool
  | none => true
  | some d => d.wfb

mutual

/-- Every `Duration` stored in the event tree satisfies the Rust type
invariant. -/
def wfEvent : AuditEvent → Bool
  | .log _ => true
  | .scope s => wfScope s

/-- Every `Duration` stored in the scope tree satisfies the Rust type
invariant (true of every value the Rust code can construct). -/
def wfScope : AuditScope → Bool
  | .mk _ _ d evs => wfOptDuration d && wfEvents evs

/-- Well-formedness of an event list. -/
def wfEvents : List AuditEvent → Bool
  | [] => true
  | e :: es => wfEvent e && wfEvents es

end

theorem deserializeDuration_serialize (d : Duration) (h : d.wfb = true) :
    deserializeDuration (serializeDuration d) = some d := by
  obtain ⟨s, n⟩ := d
  have hn : n < 1000000000 := by simpa [Duration.wfb] using h
  simp [serializeDuration, deserializeDuration, Duration.new,
        Nat.div_eq_of_lt hn, Nat.mod_eq_of_lt hn]

theorem deserializeOptionDuration_serialize (d : Option Duration)
    (h : wfOptDuration d = true) :
    deserializeOptionDuration (serializeOptionDuration d) = some d := by
  cases d with
  | none => simp [serializeOptionDuration, deserializeOptionDuration]
  | some du =>
    obtain ⟨s, n⟩ := du
    have hn : n < 1000000000 := by simpa [wfOptDuration, Duration.wfb] using h
    simp [serializeOptionDuration, serializeDuration, deserializeOptionDuration,
          deserializeDuration, Duration.new, Nat.div_eq_of_lt hn, Nat.mod_eq_of_lt hn]

theorem deserializeLog_serialize (l : AuditLog) :
    deserializeLog (serializeLog l) = some l := by
  cases l
  simp [serializeLog, deserializeLog]

mutual

theorem rtEvent : ∀ (e : AuditEvent), wfEvent e = true →
    deserializeEvent (serializeEvent e) = some e
  | .log l, _ => by simp [serializeEvent, deserializeEvent, deserializeLog_serialize]
  | .scope s, h => by
    have hs := rtScope s (by simpa [wfEvent] using h)
    simp [serializeEvent, deserializeEvent, hs]

theorem rtScope : ∀ (s : AuditScope), wfScope s = true →
    deserializeScope (serializeScope s) = some s
  | .mk t n d evs, h => by
    have hd : wfOptDuration d = true := by
      have h' := h
      simp [wfScope] at h'
      exact h'.1
    have hevs : wfEvents evs = true := by
      have h' := h
      simp [wfScope] at h'
      exact h'.2
    simp [serializeScope, deserializeScope,
          deserializeOptionDuration_serialize d hd, rtEvents evs hevs]

theorem rtEvents : ∀ (l : List AuditEvent), wfEvents l = true →
    deserializeEvents (serializeEvents l) = some l
  | [], _ => by simp [serializeEvents, deserializeEvents]
  | e :: es, h => by
    have h1 : wfEvent e = true := by
      have h' := h
      simp [wfEvents] at h'
      exact h'.1
    have h2 : wfEvents es = true := by
      have h' := h
      simp [wfEvents] at h'
      exact h'.2
    simp [serializeEvents, deserializeEvents, rtEvent e h1, rtEvents es h2]

end

/-- One recorder call on a scope: either `log_event` (with the timestamp the
call captures) or `append_scope` (with the child scope it is given). -/
inductive AuditOp where
  | logEvent (now : String) (data : String)
  | appendScope (child : AuditScope)

/-- The single event that a recorder call pushes onto `events`. -/
def opEvent : AuditOp → AuditEvent
  | .logEvent now data => .log ⟨now, data⟩
  | .appendScope c => .scope c

/-- Apply one recorder call to a scope. -/
def applyOp (s : AuditScope) : AuditOp → AuditScope
  | .logEvent now data => s.log_event now data
  | .appendScope c => s.append_scope c

/-- Apply a finite sequence of recorder calls to a scope, in call order. -/
def applyOps (s : AuditScope) : List AuditOp → AuditScope
  | [] => s
  | op :: ops => applyOps (applyOp s op) ops

theorem applyOp_eq (s : AuditScope) (op : AuditOp) :
    applyOp s op = .mk s.time s.name s.duration (s.events ++ [opEvent op]) := by
  obtain ⟨t, n, d, evs⟩ := s
  cases op with
  | logEvent now data =>
    simp [applyOp, AuditScope.log_event, opEvent, AuditScope.time, AuditScope.name,
          AuditScope.duration, AuditScope.events]
  | appendScope c =>
    simp [applyOp, AuditScope.append_scope, opEvent, AuditScope.time, AuditScope.name,
          AuditScope.duration, AuditScope.events]

theorem applyOps_eq (s : AuditScope) (ops : List AuditOp) :
    applyOps s ops = .mk s.time s.name s.duration (s.events ++ ops.map opEvent) := by
  induction ops generalizing s with
  | nil =>
    obtain ⟨t, n, d, evs⟩ := s
    simp [applyOps, AuditScope.time, AuditScope.name, AuditScope.duration, AuditScope.events]
  | cons op ops ih =>
    rw [applyOps, ih, applyOp_eq]
    simp [AuditScope.time, AuditScope.name, AuditScope.duration, AuditScope.events]

set_option linter.unusedVariables false in
/-- Model of the `audit_segment!` macro.  Its inputs: the two
`Instant::now()` readings (`start`, taken before the work, and `stop`,
taken after it), the audit expression `$au` bound by the macro, and the
zero-argument closure `$fun`, modelled as a transformer of the mutable
state `σ` it captures (in intended use: the scope).  The macro body runs
the closure once, computes `diff = stop.duration_since(start)`, and
returns the closure's result; `diff` is bound and then dropped, and `$au`
is never used. -/
def audit_segment {σ α : Type} (start stop : Nat) (au : σ) (f : σ → α × σ) : α × σ :=
  let r := f au
  let diff := stop - start
  r


theorem serializeEvents_append (l1 l2 : List AuditEvent) :
    serializeEvents (l1 ++ l2) = serializeEvents l1 ++ serializeEvents l2 := by
  induction l1 with
  | nil => simp [serializeEvents]
  | cons e es ih => simp [serializeEvents, ih]

theorem serializeEvents_length (l : List AuditEvent) :
    (serializeEvents l).length = l.length := by
  induction l with
  | nil => simp [serializeEvents]
  | cons e es ih => simp [serializeEvents, ih]

/-- Shape of a nullable number, as the spec's record-shape grammar writes
the `duration` field: `number(seconds, nullable)`. -/
def specNullableNumber : Json → Bool
  | .null => true
  | .num _ => true
  | _ => false

/-- Shape of a `Log` record as the spec's grammar writes it:
`\x7b time: string, name: string \x7d`. -/
def specShapeLog : Json → Bool
  | .obj [("time", .str _), ("name", .str _)] => true
  | _ => false

mutual

/-- Modelled from the spec's record-shape grammar (§6): a `Scope` record is
`\x7b time: string, name: string, duration: number(seconds, nullable),
events: array<Event> \x7d`. -/
def specShapeScope : Json → Bool
  | .obj [("time", .str _), ("name", .str _), ("duration", dj), ("events", .arr evs)] =>
    specNullableNumber dj && specShapeEvents evs
  | _ => false

/-- Modelled from the spec's record-shape grammar (§6): an `Event` is the
discriminated union `\x7b "log": Log \x7d | \x7b "scope": Scope \x7d`. -/
def specShapeEvent : Json → Bool
  | .obj [("log", l)] => specShapeLog l
  | .obj [("scope", s)] => specShapeScope s
  | _ => false

/-- Shape of an `array<Event>`. -/
def specShapeEvents : List Json → Bool
  | [] => true
  | j :: js => specShapeEvent j && specShapeEvents js

end

/-- Shape of the `duration` field as the code actually emits it: `null`, or
serde's `Duration` encoding `\x7b "secs": integer, "nanos": integer \x7d`. -/
def durationShape : Json → Bool
  | .null => true
  | .obj [("secs", .num _), ("nanos", .num _)] => true
  | _ => false

mutual

/-- The record shape the code actually emits for a `Scope`: like the spec's
grammar, except that a present `duration` is serde's two-field `Duration`
object rather than a plain number of seconds. -/
def emittedShapeScope : Json → Bool
  | .obj [("time", .str _), ("name", .str _), ("duration", dj), ("events", .arr evs)] =>
    durationShape dj && emittedShapeEvents evs
  | _ => false

/-- The shape the code actually emits for an `Event`: the externally tagged
union with discriminants `log` and `scope` verbatim. -/
def emittedShapeEvent : Json → Bool
  | .obj [("log", l)] => specShapeLog l
  | .obj [("scope", s)] => emittedShapeScope s
  | _ => false

/-- Shape of the emitted events array. -/
def emittedShapeEvents : List Json → Bool
  | [] => true
  | j :: js => emittedShapeEvent j && emittedShapeEvents js

end

mutual

theorem emittedShapeScope_serialize : ∀ (s : AuditScope),
    emittedShapeScope (serializeScope s) = true
  | .mk t n d evs => by
    have hevs := emittedShapeEvents_serialize evs
    cases d with
    | none => simp [serializeScope, emittedShapeScope, serializeOptionDuration,
                    durationShape, hevs]
    | some du => simp [serializeScope, emittedShapeScope, serializeOptionDuration,
                       serializeDuration, durationShape, hevs]

theorem emittedShapeEvent_serialize : ∀ (e : AuditEvent),
    emittedShapeEvent (serializeEvent e) = true
  | .log l => by
    obtain ⟨t, n⟩ := l
    simp [serializeEvent, emittedShapeEvent, serializeLog, specShapeLog]
  | .scope s => by
    have hs := emittedShapeScope_serialize s
    simp [serializeEvent, emittedShapeEvent, hs]

theorem emittedShapeEvents_serialize : ∀ (l : List AuditEvent),
    emittedShapeEvents (serializeEvents l) = true
  | [] => by simp [serializeEvents, emittedShapeEvents]
  | e :: es => by
    have h1 := emittedShapeEvent_serialize e
    have h2 := emittedShapeEvents_serialize es
    simp [serializeEvents, emittedShapeEvents, h1, h2]

end

/-- JSON string escaping for the characters that occur in these records
(`"` and `\`; serde_json additionally escapes control characters, which
changes only the rendered text, not the error behaviour). -/
def escapeChar (c : Char) : String :=
  if c = '"' then "\\\"" else if c = '\\' then "\\\\" else String.singleton c

/-- Escape a string for inclusion in a JSON document. -/
def escapeString (s : String) : String :=
  String.join (s.toList.map escapeChar)

mutual

/-- Total rendering of a JSON value to text (compact layout; serde_json's
pretty printer differs only in inserted whitespace). -/
def renderJson : Json → String
  | .null => "null"
  | .str s => "\"" ++ escapeString s ++ "\""
  | .num n => toString n
  | .arr js => "[" ++ renderArray js ++ "]"
  | .obj kvs => "\x7b" ++ renderFields kvs ++ "\x7d"

/-- Render array elements, comma-separated. -/
def renderArray : List Json → String
  | [] => ""
  | [j] => renderJson j
  | j :: js => renderJson j ++ "," ++ renderArray js

/-- Render object entries, comma-separated. -/
def renderFields : List (String × Json) → String
  | [] => ""
  | [(k, v)] => "\"" ++ escapeString k ++ "\":" ++ renderJson v
  | (k, v) :: kvs => "\"" ++ escapeString k ++ "\":" ++ renderJson v ++ "," ++ renderFields kvs

end

/-- `serde_json::to_string_pretty(&AuditScope)`: the derived serializers
for `AuditScope`/`AuditEvent`/`AuditLog` and the impls for `String`,
`Option` and `Duration` perform no fallible step on the string writer (no
non-string map keys, no custom `Serialize` that can error), so the
`Result` is always `Ok` of the rendered document. -/
def to_string_pretty (s : AuditScope) : Except String String :=
  Except.ok (renderJson (serializeScope s))

/-- `Result::unwrap()`: yields the `Ok` value; `none` models the panic
taken on `Err`. -/
def unwrapResult {ε α : Type} : Except ε α → Option α
  | .ok a => some a
  | .error _ => none

/-- `impl fmt::Display for AuditScope`:
`let d = serde_json::to_string_pretty(self).unwrap(); write!(f, "...", d)`.
A `none` result models a panic escaping `fmt`. -/
def auditScopeDisplay (s : AuditScope) : Option String :=
  unwrapResult (to_string_pretty s)

/-- C3: `AuditScope::new(name)` is total and returns a scope whose `time`
is the captured timestamp, whose `name` equals the given name, whose
`duration` is `None` and whose `events` is empty; serializing a fresh
scope yields a record with a `null` `duration` field and an empty `events`
array. -/
theorem new_scope_spec (now name : String) :
    (AuditScope.new now name).time = now ∧
    (AuditScope.new now name).name = name ∧
    (AuditScope.new now name).duration = none ∧
    (AuditScope.new now name).events = [] ∧
    (serializeScope (AuditScope.new now name)).getField "duration" = some .null ∧
    (serializeScope (AuditScope.new now name)).getField "events" = some (.arr []) := by
  refine ⟨rfl, rfl, rfl, rfl, ?_, ?_⟩ <;>
    simp [AuditScope.new, serializeScope, serializeOptionDuration, serializeEvents,
          Json.getField, lookupField]

/-- C8: `log_event(message)` appends exactly one `log` event at the end of
`events`, carrying the timestamp captured at the call and the given
message as its `name`, and changes nothing else of the scope. -/
theorem log_event_spec (s : AuditScope) (now msg : String) :
    s.log_event now msg = .mk s.time s.name s.duration (s.events ++ [.log ⟨now, msg⟩]) := by
  obtain ⟨t, n, d, evs⟩ := s
  simp [AuditScope.log_event, AuditScope.time, AuditScope.name,
        AuditScope.duration, AuditScope.events]

/-- C9: `append_scope(child)` appends the child as one `scope`-tagged event
(no validation, any child accepted); the parent's serialized `events` array
gains exactly one `scope`-tagged entry wrapping the child's record, whose
own `events` array is the child's N events serialized element-wise in
order. -/
theorem append_scope_spec (s c : AuditScope) :
    (s.append_scope c).events = s.events ++ [.scope c] ∧
    (serializeScope (s.append_scope c)).getField "events"
      = some (.arr (serializeEvents s.events ++ [.obj [("scope", serializeScope c)]])) ∧
    (serializeScope c).getField "events" = some (.arr (serializeEvents c.events)) ∧
    (serializeEvents c.events).length = c.events.length := by
  obtain ⟨t, n, d, evs⟩ := s
  refine ⟨?_, ?_, ?_, serializeEvents_length _⟩
  · simp [AuditScope.append_scope, AuditScope.events]
  · simp [AuditScope.append_scope, serializeScope, Json.getField, lookupField,
          serializeEvents_append, serializeEvents, serializeEvent, AuditScope.events]
  · obtain ⟨tc, nc, dc, evsc⟩ := c
    simp [serializeScope, Json.getField, lookupField, AuditScope.events]

/-- C2: any finite interleaving of `log_event` and `append_scope` calls
yields an `events` sequence with exactly one entry per call, in call
order, with no reordering, dropping or deduplication. -/
theorem events_append_order (s : AuditScope) (ops : List AuditOp) :
    (applyOps s ops).events = s.events ++ ops.map opEvent ∧
    (ops.map opEvent).length = ops.length := by
  refine ⟨?_, by simp⟩
  rw [applyOps_eq]
  simp [AuditScope.events]

/-- C10: `log_event` and `append_scope` (in any finite interleaving) leave
`time`, `name` and `duration` unchanged and leave every previously
recorded entry of `events` unchanged in place; in particular `time` never
changes after construction. -/
theorem mutation_frame (s : AuditScope) (ops : List AuditOp) :
    (applyOps s ops).time = s.time ∧
    (applyOps s ops).name = s.name ∧
    (applyOps s ops).duration = s.duration ∧
    (applyOps s ops).events.take s.events.length = s.events := by
  rw [applyOps_eq]
  refine ⟨rfl, rfl, rfl, ?_⟩
  simp [AuditScope.events, List.take_left]

/-- C7: the `audit_segment!` macro invokes the work exactly once and
returns exactly the work's result (with whatever effect the work had on
its captured state); instrumenting the work with an invocation counter
shows the count rises by exactly one. -/
theorem audit_segment_transparent {σ α : Type} (start stop : Nat) (env : σ)
    (f : σ → α × σ) (n : Nat) :
    audit_segment start stop env f = f env ∧
    (audit_segment start stop (env, n)
        (fun p => ((f p.1).1, ((f p.1).2, p.2 + 1)))).2.2 = n + 1 :=
  ⟨rfl, rfl⟩

/-- C1 (divergence witness): after `audit_segment!` returns, the scope's
`duration` is still `None` for every fresh scope and every work built from
recorder calls — the macro computes `diff` and discards it, and nothing in
the module ever writes `duration`. -/
theorem audit_segment_duration_stays_none {α : Type} (start stop : Nat)
    (t name : String) (x : α) (ops : List AuditOp) :
    ((audit_segment start stop (AuditScope.new t name)
        (fun s => (x, applyOps s ops))).2).duration = none := by
  show (applyOps (AuditScope.new t name) ops).duration = none
  rw [applyOps_eq]
  rfl

/-- C4: deserializing the serialized form of a scope reproduces the scope
exactly — same field values at every node, same event ordering, same
nesting shape.  The hypothesis is the Rust `Duration` type invariant
(`nanos < 1_000_000_000`), which every value the Rust code can construct
satisfies. -/
theorem serialize_roundtrip (s : AuditScope) (h : wfScope s = true) :
    deserializeScope (serializeScope s) = some s :=
  rtScope s h

/-- A concrete nested scope: duration present, a leaf log, a nested child
scope with its own leaf log, and a trailing leaf log. -/
def rtExample : AuditScope :=
  .mk "2018-11-30T15:00:00+00:00" "op" (some ⟨3, 500⟩)
    [.log ⟨"2018-11-30T15:00:01+00:00", "start"⟩,
     .scope (.mk "2018-11-30T15:00:02+00:00" "sub" none
       [.log ⟨"2018-11-30T15:00:03+00:00", "work-done"⟩]),
     .log ⟨"2018-11-30T15:00:04+00:00", "end"⟩]

theorem serialize_roundtrip_witness :
    wfScope rtExample = true ∧
    deserializeScope (serializeScope rtExample) = some rtExample :=
  ⟨by decide, serialize_roundtrip rtExample (by decide)⟩

/-- A concrete scope with a present duration (3 s, 500 ns). -/
def someDurationScope : AuditScope :=
  .mk "2018-11-30T15:00:00+00:00" "op" (some ⟨3, 500⟩) []

/-- C5 (counterexample): the serialized form of a scope with a present
`duration` does not match the spec's record-shape grammar, because serde
encodes a `Duration` as the object `\x7b "secs", "nanos" \x7d`, not as a
plain (nullable) number of seconds. -/
theorem spec_shape_duration_counterexample :
    specShapeScope (serializeScope someDurationScope) = false := by
  rfl

/-- C5 (amended): every serialized scope matches the spec's record shape
with the `duration` field amended: `duration` is `null` or serde's
two-field `Duration` object; all field names and the `log`/`scope`
discriminants are preserved verbatim. -/
theorem serialized_shape_emitted (s : AuditScope) :
    emittedShapeScope (serializeScope s) = true :=
  emittedShapeScope_serialize s

/-- C6: rendering a scope to its structured form never fails for this data
model, and the `Display` impl emits exactly the rendered record — so no
serialization failure is ever swallowed (vacuously, every failure is
surfaced). -/
theorem display_surfaces_serialization (s : AuditScope) :
    to_string_pretty s = Except.ok (renderJson (serializeScope s)) ∧
    auditScopeDisplay s = some (renderJson (serializeScope s)) :=
  ⟨rfl, rfl⟩
